import Mathlib

/-!
Verification development for the crypto-info-mcp repository.

The repository is a FastMCP tool server (`main.py`) exposing three tools
(`get_market_overview`, `get_coin_details`, `get_realtime_news`) plus a
companion Gemini chat client (`example/client.py`).  This file shallowly
embeds the data model and the pure decision logic of those operations:
HTTP and Telegram results become explicit inputs, exceptions become
`Except`/sum types, and mutable state becomes explicit state passing.
-/

/-! ## JSON-like values (schemas handled by `example/client.py`) -/

/-- A JSON-like value: the nested structure of mappings, sequences and
scalars that MCP tool input schemas are made of.  Mappings are modelled as
association lists in insertion order, matching Python dict iteration. -/
inductive JVal where
  | str (s : String) : JVal
  | num (n : Int) : JVal
  | boolV (b : Bool) : JVal
  | null : JVal
  | arr (items : List JVal) : JVal
  | obj (entries : List (String × JVal)) : JVal

mutual

/-- Embedding of `CryptoAssistantClient._remove_keys_recursively`
(`example/client.py` lines 50-59): on a dict, keep only the entries whose
key is not in `ks` and recurse into their values; on a list, recurse into
every element; return any other value unchanged. -/
def remove_keys_recursively (ks : List String) : JVal → JVal
  | JVal.str s => JVal.str s
  | JVal.num n => JVal.num n
  | JVal.boolV b => JVal.boolV b
  | JVal.null => JVal.null
  | JVal.arr items => JVal.arr (remove_keys_list ks items)
  | JVal.obj entries => JVal.obj (remove_keys_entries ks entries)

/-- List-comprehension part of `_remove_keys_recursively` for lists. -/
def remove_keys_list (ks : List String) : List JVal → List JVal
  | [] => []
  | v :: vs => remove_keys_recursively ks v :: remove_keys_list ks vs

/-- Dict-comprehension part of `_remove_keys_recursively`: filter out the
entries whose key is in `ks` and recurse into the remaining values. -/
def remove_keys_entries (ks : List String) : List (String × JVal) → List (String × JVal)
  | [] => []
  | (k, v) :: rest =>
      if ks.contains k then remove_keys_entries ks rest
      else (k, remove_keys_recursively ks v) :: remove_keys_entries ks rest

end

mutual

/-- Predicate `keyOccurs k v`: holds when `k` appears as a mapping key anywhere in
the nested structure `v` (at any depth, also inside sequences). -/
def keyOccurs (k : String) : JVal → Bool
  | JVal.str _ => false
  | JVal.num _ => false
  | JVal.boolV _ => false
  | JVal.null => false
  | JVal.arr items => keyOccursList k items
  | JVal.obj entries => keyOccursEntries k entries

/-- Occurrence check over a sequence of values. -/
def keyOccursList (k : String) : List JVal → Bool
  | [] => false
  | v :: vs => keyOccurs k v || keyOccursList k vs

/-- Occurrence check over the entries of a mapping: the key may be an entry's
own key or occur inside an entry's value. -/
def keyOccursEntries (k : String) : List (String × JVal) → Bool
  | [] => false
  | (k', v) :: rest => k' == k || keyOccurs k v || keyOccursEntries k rest

end

/-- The fixed key set stripped by the client
(`keys_to_remove = ['title', 'default']` in `_mcp_tools_to_gemini_tools`). -/
def keys_to_remove : List String := ["title", "default"]

/-- An MCP tool descriptor as seen by the client: name, description and
declared input schema. -/
structure MCPTool where
  name : String
  description : String
  inputSchema : JVal

/-- A Gemini `FunctionDeclaration`: name, description, parameter schema. -/
structure FunctionDeclaration where
  name : String
  description : String
  parameters : JVal

/-- A Gemini `Tool` wrapping a list of function declarations. -/
structure GeminiTool where
  function_declarations : List FunctionDeclaration

/-- Embedding of `CryptoAssistantClient._mcp_tools_to_gemini_tools`
(`example/client.py` lines 61-77): strip `['title', 'default']` from each
tool's input schema and wrap the result in a one-element Gemini `Tool`. -/
def mcp_tools_to_gemini_tools (tools : List MCPTool) : List GeminiTool :=
  tools.map fun t =>
    { function_declarations :=
        [{ name := t.name
           description := t.description
           parameters := remove_keys_recursively keys_to_remove t.inputSchema }] }

/-! ### Helper lemmas about the key-stripping transform -/

mutual

theorem remove_keys_recursively_idem_aux (ks : List String) :
    (v : JVal) →
      remove_keys_recursively ks (remove_keys_recursively ks v) =
        remove_keys_recursively ks v
  | JVal.str _ => rfl
  | JVal.num _ => rfl
  | JVal.boolV _ => rfl
  | JVal.null => rfl
  | JVal.arr items => by
      simp only [remove_keys_recursively, remove_keys_list_idem_aux ks items]
  | JVal.obj entries => by
      simp only [remove_keys_recursively, remove_keys_entries_idem_aux ks entries]

theorem remove_keys_list_idem_aux (ks : List String) :
    (l : List JVal) →
      remove_keys_list ks (remove_keys_list ks l) = remove_keys_list ks l
  | [] => rfl
  | v :: vs => by
      simp only [remove_keys_list, remove_keys_recursively_idem_aux ks v,
        remove_keys_list_idem_aux ks vs]

theorem remove_keys_entries_idem_aux (ks : List String) :
    (l : List (String × JVal)) →
      remove_keys_entries ks (remove_keys_entries ks l) = remove_keys_entries ks l
  | [] => rfl
  | (k, v) :: rest => by
      by_cases hk : ks.contains k
      · simp only [remove_keys_entries, hk, if_pos, remove_keys_entries_idem_aux ks rest]
      · simp only [remove_keys_entries, hk, if_neg, if_false,
          remove_keys_recursively_idem_aux ks v, remove_keys_entries_idem_aux ks rest]

end

/-- The transform on a mapping's entries is literally: filter out the
designated keys, then rewrite the remaining values recursively. -/
theorem remove_keys_entries_eq_filter_map (ks : List String) :
    (l : List (String × JVal)) →
      remove_keys_entries ks l =
        (l.filter fun p => !(ks.contains p.1)).map
          fun p => (p.1, remove_keys_recursively ks p.2)
  | [] => rfl
  | (k, v) :: rest => by
      by_cases hk : k ∈ ks
      · simp [remove_keys_entries, hk, List.filter_cons,
          remove_keys_entries_eq_filter_map ks rest]
      · simp [remove_keys_entries, hk, List.filter_cons,
          remove_keys_entries_eq_filter_map ks rest]

/-- The transform on a sequence is exactly an order- and length-preserving
map of the transform over the elements. -/
theorem remove_keys_list_eq_map (ks : List String) :
    (l : List JVal) →
      remove_keys_list ks l = l.map (remove_keys_recursively ks)
  | [] => rfl
  | v :: vs => by
      simp only [remove_keys_list, List.map_cons, remove_keys_list_eq_map ks vs]

mutual

theorem keyOccurs_remove_keys_aux (ks : List String) (k : String)
    (hk : ks.contains k = true) :
    (v : JVal) → keyOccurs k (remove_keys_recursively ks v) = false
  | JVal.str _ => rfl
  | JVal.num _ => rfl
  | JVal.boolV _ => rfl
  | JVal.null => rfl
  | JVal.arr items => by
      simp only [remove_keys_recursively, keyOccurs,
        keyOccursList_remove_keys_aux ks k hk items]
  | JVal.obj entries => by
      simp only [remove_keys_recursively, keyOccurs,
        keyOccursEntries_remove_keys_aux ks k hk entries]

theorem keyOccursList_remove_keys_aux (ks : List String) (k : String)
    (hk : ks.contains k = true) :
    (l : List JVal) → keyOccursList k (remove_keys_list ks l) = false
  | [] => rfl
  | v :: vs => by
      simp only [remove_keys_list, keyOccursList,
        keyOccurs_remove_keys_aux ks k hk v,
        keyOccursList_remove_keys_aux ks k hk vs, Bool.or_self]

theorem keyOccursEntries_remove_keys_aux (ks : List String) (k : String)
    (hk : ks.contains k = true) :
    (l : List (String × JVal)) → keyOccursEntries k (remove_keys_entries ks l) = false
  | [] => rfl
  | (k', v) :: rest => by
      by_cases hk' : ks.contains k'
      · simp only [remove_keys_entries, hk', if_pos,
          keyOccursEntries_remove_keys_aux ks k hk rest]
      · have hne : (k' == k) = false := by
          apply beq_eq_false_iff_ne.mpr
          intro h
          rw [h] at hk'
          exact hk' hk
        simp only [remove_keys_entries, hk', if_false, keyOccursEntries, hne,
          keyOccurs_remove_keys_aux ks k hk v,
          keyOccursEntries_remove_keys_aux ks k hk rest, Bool.or_self,
          Bool.false_or]

end

/-! ## Server model (`main.py`) -/

/-- One result slot of `asyncio.gather(..., return_exceptions=True)`
(`main.py` line 109-114): either the coroutine's value or the exception
instance it raised. -/
inductive FetchResult (α : Type) where
  | ok (a : α) : FetchResult α
  | exn : FetchResult α

/-- A Telegram message as consumed by `main.py`: its `.text` (the empty
string models a falsy/absent text) and its `.date` already rendered by
`strftime('%m-%d %H:%M')`.  Messages are given in the order the Telethon
iterator yields them. -/
structure TMsg where
  text : String
  dateStr : String

/-- Python `dict.get(key, default)` over an association list. -/
def dictGetD (d : List (String × String)) (k : String) (dflt : String) : String :=
  (d.lookup k).getD dflt

/-- Python `str.replace('\\n', ' ')`: newline characters become spaces. -/
def pyReplaceNewline (s : String) : String :=
  String.mk (s.data.map fun c => if c = '\n' then ' ' else c)

/-- Python `str.strip()`: drop whitespace from both ends. -/
def pyStrip (s : String) : String :=
  String.mk (((s.data.dropWhile Char.isWhitespace).reverse.dropWhile
    Char.isWhitespace).reverse)

/-- Python `str.lower()` (ASCII range, as used on ASCII commands). -/
def pyLower (s : String) : String :=
  String.mk (s.data.map Char.toLower)

/-- Python `str.upper()` (ASCII range, as used on ticker symbols). -/
def pyUpper (s : String) : String :=
  String.mk (s.data.map Char.toUpper)

/-- Python one-decimal float formatting (format spec .1f), modelled over exact
rationals: round to the nearest tenth and print with one digit after the
point. -/
def fmt1f (q : Rat) : String :=
  let t : Int := round (q * 10)
  let a := t.natAbs
  (if t < 0 then "-" else "") ++ toString (a / 10) ++ "." ++ toString (a % 10)

/-- Insert a comma after every group of three digits, working on the
reversed digit list. -/
def commaGroup : List Char → List Char
  | a :: b :: c :: d :: rest => a :: b :: c :: ',' :: commaGroup (d :: rest)
  | l => l

/-- Python thousands-separator integer formatting (comma format spec). -/
def formatComma (n : Int) : String :=
  (if n < 0 then "-" else "") ++
    String.mk (commaGroup (toString n.natAbs).data.reverse).reverse

/-- Python truthiness of an optional environment variable: set and
non-empty. -/
def envTruthy : Option String → Bool
  | none => false
  | some s => s != ""

/-- The global-market payload used by `get_market_overview`: the parsed
`data` dict, whose only consulted entry is `market_cap_percentage`, a dict
of numeric dominance percentages. -/
def GlobalData := List (String × List (String × Rat))

/-- The fear-and-greed payload: the first element of the `data` array,
a dict of strings (`value`, `value_classification`). -/
def FngData := List (String × String)

/-- Embedding of `_fetch_fear_and_greed_index` (`main.py` lines 62-71):
the HTTP/JSON outcome is an input; any exception is caught and the
function returns the empty dict. -/
def fetch_fear_and_greed_index (httpRes : Option FngData) : FngData :=
  match httpRes with
  | some d => d
  | none => []

/-- Embedding of `_fetch_global_market_data` (`main.py` lines 73-85):
returns the empty dict when the CoinGecko key is unset/empty; otherwise
the HTTP/JSON outcome with any exception caught into the empty dict. -/
def fetch_global_market_data (key : Option String) (httpRes : Option GlobalData) :
    GlobalData :=
  if envTruthy key = false then []
  else
    match httpRes with
    | some d => d
    | none => []

/-- Embedding of `_fetch_whale_alerts` (`main.py` lines 87-98) as observed
through `asyncio.gather(return_exceptions=True)`: `_get_telegram_client`
raises `FastMCPError` outside the `try` when the shared client is absent
(so the gather slot holds the exception); otherwise at most 5 yielded
messages are kept, those with truthy text, as raw text. -/
def fetch_whale_alerts (ready : Bool) (hist : List TMsg) : FetchResult (List String) :=
  if ready = false then FetchResult.exn
  else
    FetchResult.ok
      ((hist.take 5).filterMap fun m => if m.text != "" then some m.text else none)

/-- Header line of the market-overview report (`main.py` line 116). -/
def overviewHeader : String := "현재 시장 개요 브리핑:"

/-- Placeholder whale line of the overview (`main.py` line 131). -/
def whalePlaceholder : String := "- 주요 자금 이동 (지난 1시간): 포착된 움직임 없음"

/-- Heading of the whale section when alerts exist (`main.py` line 126). -/
def whaleHeading : String := "- 주요 자금 이동 (지난 1시간):"

/-- The sentiment line rendered from fear-and-greed data
(`main.py` line 118). -/
def sentimentLine (d : FngData) : String :=
  "- 시장 심리: '" ++ dictGetD d "value_classification" "N/A" ++
    "' (지수: " ++ dictGetD d "value" "N/A" ++ ")"

/-- The dominance line rendered from `market_cap_percentage`
(`main.py` lines 121-123). -/
def dominanceLine (mcp : List (String × Rat)) : String :=
  "- 시장 지배력: BTC " ++ fmt1f ((mcp.lookup "btc").getD 0) ++
    "%, ETH " ++ fmt1f ((mcp.lookup "eth").getD 0) ++ "%"

/-- One whale-alert line (`main.py` lines 128-129). -/
def whaleAlertLine (a : String) : String :=
  "  - " ++ pyStrip (pyReplaceNewline a)

/-- The report lines assembled by `get_market_overview`
(`main.py` lines 116-132), from the three gather slots: a header, then a
sentiment line when the fear-and-greed slot holds a truthy dict, then a
dominance line when the global slot holds a truthy dict containing
`market_cap_percentage`, then the whale section (heading plus one line
per alert, or the fixed placeholder). -/
def overviewLines (fng : FetchResult FngData) (gd : FetchResult GlobalData)
    (wh : FetchResult (List String)) : List String :=
  let r1 := [overviewHeader]
  let r2 :=
    match fng with
    | FetchResult.ok d => if d.isEmpty then r1 else r1 ++ [sentimentLine d]
    | FetchResult.exn => r1
  let r3 :=
    match gd with
    | FetchResult.ok d =>
        if d.isEmpty then r2
        else
          match d.lookup "market_cap_percentage" with
          | some mcp => r2 ++ [dominanceLine mcp]
          | none => r2
    | FetchResult.exn => r2
  match wh with
  | FetchResult.ok alerts =>
      if alerts.isEmpty then r3 ++ [whalePlaceholder]
      else r3 ++ [whaleHeading] ++ alerts.map whaleAlertLine
  | FetchResult.exn => r3 ++ [whalePlaceholder]

/-- Embedding of the `get_market_overview` tool (`main.py` lines 103-133)
over the three gather slots: it joins the report lines and returns
normally (`Except.error` would model an uncaught exception; none exists
in the function body after the gather). -/
def get_market_overview (fng : FetchResult FngData) (gd : FetchResult GlobalData)
    (wh : FetchResult (List String)) : Except String String :=
  Except.ok (String.intercalate "\n" (overviewLines fng gd wh))

/-- The server-side environment a tool call runs against: whether the
shared Telegram client is initialized and authorized, the messages each
channel yields (in iterator order), and the outcomes of the two HTTP
fetches (`none` models an exception). -/
structure ServerEnv where
  ready : Bool
  hist : String → List TMsg
  fngHttp : Option FngData
  cgKey : Option String
  globalHttp : Option GlobalData

/-- Composition of `get_market_overview` with its three sub-fetches: the first
two helpers swallow their own failures into empty dicts, and the whale
fetch's session error is captured by the gather. -/
def get_market_overview_full (env : ServerEnv) : Except String String :=
  get_market_overview
    (FetchResult.ok (fetch_fear_and_greed_index env.fngHttp))
    (FetchResult.ok (fetch_global_market_data env.cgKey env.globalHttp))
    (fetch_whale_alerts env.ready (env.hist "whale_alert_io"))

/-! ### Coin detail lookup (`main.py` lines 135-164) -/

/-- The parsed CoinGecko coin payload, restricted to the fields
`get_coin_details` reads.  `homepage = none` models `links` absent or
`homepage` absent (both fall back to `['N/A']`); `some []` models a
present-but-empty homepage list, whose `[0]` raises `IndexError`. -/
structure CoinDetails where
  name : Option String
  symbol : Option String
  rank : Option Int
  priceKrw : Option Int
  homepage : Option (List String)

/-- Outcome of the single `httpx` fetch in `get_coin_details`: a parsed
body, an `httpx.HTTPStatusError` from `raise_for_status` carrying the
status code and the exception's string rendering, or any other exception
with its string rendering. -/
inductive HttpOutcome where
  | ok (body : CoinDetails) : HttpOutcome
  | statusErr (code : Nat) (emsg : String) : HttpOutcome
  | failure (emsg : String) : HttpOutcome

/-- Error message for a missing CoinGecko key (`main.py` line 141). -/
def coinKeyMissingMsg : String := "서버에 CoinGecko API 키가 설정되지 않았습니다."

/-- Error message for HTTP 404 (`main.py` line 161). -/
def coinNotFoundMsg (coin_id : String) : String :=
  "'" ++ coin_id ++ "' 코인을 찾을 수 없습니다. ID를 확인해주세요."

/-- Error message for a non-404 HTTP status error
(`main.py` line 162). -/
def coinApiErrMsg (coin_id : String) (emsg : String) : String :=
  "'" ++ coin_id ++ "' 정보 조회 중 API 에러 발생: " ++ emsg

/-- Error message for any other exception (`main.py` line 164). -/
def coinFetchFailMsg (coin_id : String) (emsg : String) : String :=
  "'" ++ coin_id ++ "' 정보를 가져오는 데 실패했습니다: " ++ emsg

/-- Python's rendering of the `IndexError` raised by `[0]` on an empty
list, as caught by the generic `except` clause. -/
def indexErrorMsg : String := "list index out of range"

/-- The four report lines of a successful lookup (`main.py` lines
152-157), given the first homepage entry. -/
def coinReportLines (d : CoinDetails) (hp : String) : List String :=
  ["'" ++ d.name.getD "N/A" ++ "' (" ++ pyUpper (d.symbol.getD "N/A") ++ ") 상세 정보:",
   "- 시가총액 순위: " ++ (match d.rank with
     | some r => toString r
     | none => "N/A") ++ "위",
   (match d.priceKrw with
     | some p => "- 현재 가격: ₩" ++ formatComma p
     | none => "현재 가격: N/A"),
   "- 홈페이지: " ++ hp]

/-- Embedding of the `get_coin_details` tool (`main.py` lines 135-164).
The missing-key check precedes the fetch; `raise_for_status` failures are
split on 404 versus other codes; any other exception — including the
`IndexError` from indexing an empty homepage list during rendering —
becomes the generic fetch-failure error. -/
def get_coin_details (key : Option String) (coin_id : String) (http : HttpOutcome) :
    Except String String :=
  if envTruthy key = false then Except.error coinKeyMissingMsg
  else
    match http with
    | HttpOutcome.statusErr code emsg =>
        if code = 404 then Except.error (coinNotFoundMsg coin_id)
        else Except.error (coinApiErrMsg coin_id emsg)
    | HttpOutcome.failure emsg => Except.error (coinFetchFailMsg coin_id emsg)
    | HttpOutcome.ok d =>
        match (d.homepage.getD ["N/A"]).head? with
        | none => Except.error (coinFetchFailMsg coin_id indexErrorMsg)
        | some hp => Except.ok (String.intercalate "\n" (coinReportLines d hp))

/-! ### Realtime news (`main.py` lines 166-198) -/

/-- An external interaction observable during `get_realtime_news`:
consulting the shared Telegram session, or querying one channel. -/
inductive NetEvent where
  | sessionUse : NetEvent
  | channelQuery (ch : String) : NetEvent

/-- Error message for an out-of-range `hours` (`main.py` line 175). -/
def hoursRangeMsg : String := "'hours' 파라미터는 1과 72 사이의 값이어야 합니다."

/-- Error message raised by `_get_telegram_client`
(`main.py` line 59) when the shared client is absent or unauthorized. -/
def sessionNotReadyMsg : String := "텔레그램 클라이언트가 초기화되지 않았거나 인증에 실패했습니다."

/-- The fixed channel list of `get_realtime_news` (`main.py` line 178). -/
def newsChannels : List String := ["wublockchainenglish", "watcherguru"]

/-- One rendered news line (`main.py` line 187): date stamp, channel tag,
and the message text with newlines flattened and whitespace stripped. -/
def newsLine (ch : String) (m : TMsg) : String :=
  "- [" ++ m.dateStr ++ "] @" ++ ch ++ ": " ++ pyStrip (pyReplaceNewline m.text)

/-- Embedding of the inner `fetch_for_channel` coroutine (`main.py` lines
182-188): Telethon's `iter_messages(ch, offset_date=…, reverse=True,
limit=10)` yields the channel's in-window messages oldest-first, capped at
10; of those, the messages with truthy text are rendered into lines. -/
def fetch_for_channel (ch : String) (hist : List TMsg) : List String :=
  (hist.take 10).filterMap fun m =>
    if m.text != "" then some (newsLine ch m) else none

/-- The no-news placeholder sentence (`main.py` line 195). -/
def noNewsMsg (hours : Int) : String :=
  "지난 " ++ toString hours ++ "시간 동안 지정된 채널에서 새로운 뉴스가 없습니다."

/-- The news report header (`main.py` line 197). -/
def newsHeader (hours : Int) : String :=
  "지난 " ++ toString hours ++ "시간 동안의 주요 뉴스:"

/-- Embedding of the `get_realtime_news` tool (`main.py` lines 166-198),
instrumented with the list of external interactions it performs.  The
range check precedes everything; then `_get_telegram_client` is consulted
(raising when the client is not ready); then the two channels are queried
and their per-channel results concatenated in channel-list order. -/
def get_realtime_news (hours : Int) (env : ServerEnv) :
    Except String String × List NetEvent :=
  if ¬ (1 ≤ hours ∧ hours ≤ 72) then (Except.error hoursRangeMsg, [])
  else if env.ready = false then (Except.error sessionNotReadyMsg, [NetEvent.sessionUse])
  else
    let results := newsChannels.map fun ch => fetch_for_channel ch (env.hist ch)
    let all_messages := results.flatten
    let evts := NetEvent.sessionUse :: newsChannels.map NetEvent.channelQuery
    if all_messages.isEmpty then (Except.ok (noNewsMsg hours), evts)
    else
      (Except.ok (String.intercalate "\n" (newsHeader hours :: all_messages)), evts)

/-! ## Client model (`example/client.py`) -/

/-- One part of a Gemini response; `process_query` only reads its
`function_call` attribute. -/
structure GPart where
  function_call : Option (String × List (String × String))

/-- A Gemini model response: its parts and its `.text` rendering. -/
structure GResp where
  parts : List GPart
  text : String

/-- One content item of an MCP tool result, with its `.text`. -/
structure TextContent where
  text : String

/-- An MCP `call_tool` result: `content` is `some` list when the Python
`isinstance(…, list)` check holds, `none` otherwise. -/
structure ToolCallResult where
  content : Option (List TextContent)

/-- An external interaction observable during `process_query`: a
`send_message` round trip to the model (carrying the translated tool
list on the first send), a remote `call_tool` invocation, or the
follow-up `send_message` carrying the function response. -/
inductive ClientEvent where
  | sendMessage (tools : List GeminiTool) : ClientEvent
  | callTool (name : String) (args : List (String × String)) : ClientEvent
  | sendFunctionResponse (name : String) (content : String) : ClientEvent

/-- Error message of the connection check in `process_query` (`client.py` line 82). -/
def notConnectedMsg : String := "MCP 서버에 연결되지 않았습니다."

/-- Extraction of the tool result's text (`client.py` lines 105-107):
the first content item's text when `content` is a non-empty list, the
empty string otherwise. -/
def extractToolText (tr : ToolCallResult) : String :=
  match tr.content with
  | some (c :: _) => c.text
  | _ => ""

/-- Embedding of `CryptoAssistantClient.process_query` (`client.py` lines
79-117).  Inputs stand for the externals: `connected` for `self.session`,
`chat` for `self.chat` (a numeric handle), `newChat` for the handle
`start_chat` would create, `mcpTools` for the server's tool list, `resp1`
for the model's first response, `toolRes` for the remote tool result and
`resp2` for the follow-up response.  Output: the returned text or the
uncaught exception, the new `self.chat`, and the interaction log.  Only
`parts[0]` is inspected; an empty `parts` raises `IndexError`. -/
def process_query (connected : Bool) (chat : Option Nat) (newChat : Nat)
    (mcpTools : List MCPTool) (resp1 : GResp) (toolRes : ToolCallResult)
    (resp2 : GResp) : Except String String × Option Nat × List ClientEvent :=
  if connected = false then (Except.error notConnectedMsg, chat, [])
  else
    let available_tools := mcp_tools_to_gemini_tools mcpTools
    let chat1 := some (chat.getD newChat)
    match resp1.parts.head? with
    | none =>
        (Except.error indexErrorMsg, chat1, [ClientEvent.sendMessage available_tools])
    | some p =>
        match p.function_call with
        | none =>
            (Except.ok resp1.text, chat1, [ClientEvent.sendMessage available_tools])
        | some fc =>
            let content := extractToolText toolRes
            (Except.ok resp2.text, chat1,
              [ClientEvent.sendMessage available_tools,
               ClientEvent.callTool fc.1 fc.2,
               ClientEvent.sendFunctionResponse fc.1 content])

/-- Count of remote tool invocations in an interaction log. -/
def countToolCalls (l : List ClientEvent) : Nat :=
  l.countP fun e =>
    match e with
    | ClientEvent.callTool _ _ => true
    | _ => false

/-- Count of model round trips (plain sends and function-response sends)
in an interaction log. -/
def countModelSends (l : List ClientEvent) : Nat :=
  l.countP fun e =>
    match e with
    | ClientEvent.sendMessage _ => true
    | ClientEvent.sendFunctionResponse _ _ => true
    | _ => false

/-- Outcome of one `process_query` call as seen by `chat_loop`: the
returned text together with the chat handle `process_query` left behind,
or the exception it raised. -/
inductive TurnOutcome where
  | ok (chatAfter : Option Nat) (text : String) : TurnOutcome
  | exn (emsg : String) : TurnOutcome

/-- Embedding of one iteration of `CryptoAssistantClient.chat_loop`
(`client.py` lines 124-137): strip the input; break on `quit`/`exit`;
skip empty input; otherwise run the turn, and on any exception report it
and reset `self.chat` to `None`.  Returns the chat state after the
iteration and whether the loop continues. -/
def chat_loop_iter (chat : Option Nat) (rawInput : String) (turn : TurnOutcome) :
    Option Nat × Bool :=
  let query := pyStrip rawInput
  if pyLower query = "quit" ∨ pyLower query = "exit" then (chat, false)
  else if query = "" then (chat, true)
  else
    match turn with
    | TurnOutcome.ok chatAfter _ => (chatAfter, true)
    | TurnOutcome.exn _ => (none, true)

/-! ## General helper lemmas -/

/-- The accumulator loop of `String.intercalate` only ever appends to its accumulator. -/
theorem intercalate_go_exists (sep : String) :
    (l : List String) → (acc : String) →
      ∃ t, String.intercalate.go acc sep l = acc ++ t
  | [], acc => ⟨"", (String.append_empty acc).symm⟩
  | a :: as, acc => by
      obtain ⟨t, ht⟩ := intercalate_go_exists sep as (acc ++ sep ++ a)
      exact ⟨sep ++ a ++ t, by
        have hgo : String.intercalate.go acc sep (a :: as) =
            String.intercalate.go (acc ++ sep ++ a) sep as := rfl
        rw [hgo, ht]
        simp only [String.append_assoc]⟩

/-- Joining a non-empty list of lines starts with the first line. -/
theorem intercalate_cons_exists (sep h : String) (rest : List String) :
    ∃ t, String.intercalate sep (h :: rest) = h ++ t := by
  simp only [String.intercalate]
  exact intercalate_go_exists sep rest h

/-- A string with a non-empty prefix is non-empty. -/
theorem append_ne_empty_of_left (h t : String) (hh : h ≠ "") : h ++ t ≠ "" := by
  intro he
  have hl : (h ++ t).length = 0 := by rw [he]; rfl
  rw [String.length_append] at hl
  have hz : h.length = 0 := by omega
  exact hh (String.ext (List.length_eq_zero.mp hz))

/-- A filter-shaped `filterMap` is a `map` over a `filter`. -/
theorem filterMap_guard_eq {α β : Type} (p : α → Bool) (f : α → β) :
    (l : List α) →
      (l.filterMap fun a => if p a then some (f a) else none) = (l.filter p).map f
  | [] => rfl
  | a :: l => by
      by_cases h : p a <;>
        simp [List.filterMap_cons, List.filter_cons, h, filterMap_guard_eq p f l]

/-! ## Section decomposition of the market-overview report -/

/-- The sentiment line section: one line when the fear-and-greed gather
slot holds a truthy dict, empty otherwise. -/
def sentimentSection (fng : FetchResult FngData) : List String :=
  match fng with
  | FetchResult.ok d => if d.isEmpty then [] else [sentimentLine d]
  | FetchResult.exn => []

/-- The dominance line section: one line when the global-data gather slot
holds a truthy dict containing `market_cap_percentage`. -/
def dominanceSection (gd : FetchResult GlobalData) : List String :=
  match gd with
  | FetchResult.ok d =>
      if d.isEmpty then []
      else
        match d.lookup "market_cap_percentage" with
        | some mcp => [dominanceLine mcp]
        | none => []
  | FetchResult.exn => []

/-- The whale section: a heading plus one line per alert, or the single
placeholder when the channel fetch failed or returned nothing. -/
def whaleSection (wh : FetchResult (List String)) : List String :=
  match wh with
  | FetchResult.ok alerts =>
      if alerts.isEmpty then [whalePlaceholder]
      else whaleHeading :: alerts.map whaleAlertLine
  | FetchResult.exn => [whalePlaceholder]

/-- The report lines decompose as header, sentiment section, dominance
section, whale section, in that order. -/
theorem overviewLines_eq_sections (fng : FetchResult FngData)
    (gd : FetchResult GlobalData) (wh : FetchResult (List String)) :
    overviewLines fng gd wh =
      overviewHeader :: (sentimentSection fng ++ dominanceSection gd ++ whaleSection wh) := by
  unfold overviewLines sentimentSection dominanceSection whaleSection
  cases fng <;> cases gd <;> cases wh <;> simp <;>
    (repeat' split) <;> simp

/-! ## Claim theorems -/

/-- C4: the schema-bridge transform `_remove_keys_recursively` with the
fixed key set `['title', 'default']` is idempotent: applying it twice to
any nested structure of mappings, sequences and scalars yields exactly
the result of applying it once. -/
theorem claim_remove_keys_idempotent (v : JVal) :
    remove_keys_recursively keys_to_remove (remove_keys_recursively keys_to_remove v) =
      remove_keys_recursively keys_to_remove v :=
  remove_keys_recursively_idem_aux keys_to_remove v

/-- C5: `_remove_keys_recursively` with keys `['title', 'default']`
returns every scalar unchanged; rewrites a sequence elementwise,
preserving order and length; on a mapping drops exactly the entries whose
key is designated and keeps all others in order with recursively
rewritten values; and after the transform no designated key occurs at any
nesting depth. -/
theorem claim_remove_keys_exact :
    (∀ s, remove_keys_recursively keys_to_remove (JVal.str s) = JVal.str s) ∧
    (∀ n, remove_keys_recursively keys_to_remove (JVal.num n) = JVal.num n) ∧
    (∀ b, remove_keys_recursively keys_to_remove (JVal.boolV b) = JVal.boolV b) ∧
    (remove_keys_recursively keys_to_remove JVal.null = JVal.null) ∧
    (∀ l, remove_keys_recursively keys_to_remove (JVal.arr l) =
        JVal.arr (l.map (remove_keys_recursively keys_to_remove))) ∧
    (∀ l, remove_keys_recursively keys_to_remove (JVal.obj l) =
        JVal.obj ((l.filter fun p => !(keys_to_remove.contains p.1)).map
          fun p => (p.1, remove_keys_recursively keys_to_remove p.2))) ∧
    (∀ v k, keys_to_remove.contains k = true →
        keyOccurs k (remove_keys_recursively keys_to_remove v) = false) := by
  refine ⟨fun s => rfl, fun n => rfl, fun b => rfl, rfl, ?_, ?_, ?_⟩
  · intro l
    simp only [remove_keys_recursively, remove_keys_list_eq_map]
  · intro l
    simp only [remove_keys_recursively, remove_keys_entries_eq_filter_map]
  · intro v k hk
    exact keyOccurs_remove_keys_aux keys_to_remove k hk v

/-- C5 witness: the stripped key `title` no longer occurs anywhere in a
concrete nested schema after the transform. -/
theorem claim_remove_keys_exact_witness :
    keyOccurs "title" (remove_keys_recursively keys_to_remove
      (JVal.obj [("title", JVal.str "Tool"),
                 ("properties", JVal.obj
                   [("hours", JVal.obj [("default", JVal.num 1), ("type", JVal.str "integer")])]),
                 ("items", JVal.arr [JVal.obj [("title", JVal.null)]])])) = false :=
  claim_remove_keys_exact.2.2.2.2.2.2
    (JVal.obj [("title", JVal.str "Tool"),
               ("properties", JVal.obj
                 [("hours", JVal.obj [("default", JVal.num 1), ("type", JVal.str "integer")])]),
               ("items", JVal.arr [JVal.obj [("title", JVal.null)]])])
    "title" rfl

/-- C1: for every combination of outcomes of the three gather slots —
including all three holding exceptions — `get_market_overview` returns
normally (no exception propagates) with a report that starts with the
header line and is non-empty. -/
theorem claim_market_overview_total (fng : FetchResult FngData)
    (gd : FetchResult GlobalData) (wh : FetchResult (List String)) :
    ∃ s, get_market_overview fng gd wh = Except.ok s ∧
      (∃ t, s = overviewHeader ++ t) ∧ s ≠ "" := by
  refine ⟨String.intercalate "\n" (overviewLines fng gd wh), rfl, ?_⟩
  have hlines := overviewLines_eq_sections fng gd wh
  obtain ⟨t, ht⟩ := intercalate_cons_exists "\n" overviewHeader
    (sentimentSection fng ++ dominanceSection gd ++ whaleSection wh)
  rw [hlines, ht]
  exact ⟨⟨t, rfl⟩, append_ne_empty_of_left _ _ (by decide)⟩

/-- C10: every market-overview report lists, in order: the header line;
then an optional sentiment line, present exactly when the fear-and-greed
slot holds non-exception, non-empty data; then an optional dominance
line, present exactly when the global slot holds non-exception, non-empty
data containing `market_cap_percentage`; then an always-present whale
section that is either a heading plus one line per fetched message or the
single placeholder line when the channel fetch failed or returned
nothing. -/
theorem claim_overview_invariant (fng : FetchResult FngData)
    (gd : FetchResult GlobalData) (wh : FetchResult (List String)) :
    overviewLines fng gd wh =
      overviewHeader :: (sentimentSection fng ++ dominanceSection gd ++ whaleSection wh) ∧
    (sentimentSection fng ≠ [] ↔ ∃ d, fng = FetchResult.ok d ∧ d ≠ []) ∧
    (dominanceSection gd ≠ [] ↔
      ∃ d, gd = FetchResult.ok d ∧ d ≠ [] ∧ (d.lookup "market_cap_percentage").isSome) ∧
    ((∃ alerts, wh = FetchResult.ok alerts ∧ alerts ≠ [] ∧
        whaleSection wh = whaleHeading :: alerts.map whaleAlertLine) ∨
      (whaleSection wh = [whalePlaceholder] ∧
        (wh = FetchResult.exn ∨ wh = FetchResult.ok []))) := by
  refine ⟨overviewLines_eq_sections fng gd wh, ?_, ?_, ?_⟩
  · cases fng with
    | ok d =>
        by_cases hd : d = [] <;> simp [sentimentSection, hd]
    | exn => simp [sentimentSection]
  · cases gd with
    | ok d =>
        by_cases hd : d = []
        · subst hd
          simp [dominanceSection]
        · cases hmcp : d.lookup "market_cap_percentage" with
          | none =>
              have hsec : dominanceSection (FetchResult.ok d) = [] := by
                simp [dominanceSection, hd, hmcp]
              rw [hsec]
              constructor
              · intro h
                exact absurd rfl h
              · rintro ⟨d', hd', _, hsome⟩
                injection hd' with hdd
                subst hdd
                rw [hmcp] at hsome
                exact absurd hsome (by simp)
          | some mcp =>
              have hsec : dominanceSection (FetchResult.ok d) = [dominanceLine mcp] := by
                simp [dominanceSection, hd, hmcp]
              rw [hsec]
              constructor
              · intro _
                exact ⟨d, rfl, hd, by rw [hmcp]; rfl⟩
              · intro _
                simp
    | exn =>
        constructor
        · intro h
          simp [dominanceSection] at h
        · rintro ⟨d', hd', _⟩
          exact FetchResult.noConfusion hd'
  · cases wh with
    | ok alerts =>
        by_cases ha : alerts = []
        · right
          simp [whaleSection, ha]
        · left
          exact ⟨alerts, rfl, ha, by simp [whaleSection, ha]⟩
    | exn =>
        right
        simp [whaleSection]

/-! ## Concrete environments for witnesses and counterexamples -/

/-- A server environment whose Telegram client never became ready and
whose HTTP fetches all failed. -/
def envNoTg : ServerEnv :=
  { ready := false
    hist := fun _ => []
    fngHttp := none
    cgKey := none
    globalHttp := none }

/-- A server environment with a ready Telegram client and sample messages
on both news channels (oldest first, as the reverse iterator yields). -/
def envWithNews : ServerEnv :=
  { ready := true
    hist := fun ch =>
      if ch = "wublockchainenglish" then
        [{ text := "BTC breaks range", dateStr := "10-11 09:00" },
         { text := "", dateStr := "10-11 09:30" },
         { text := "ETH upgrade shipped", dateStr := "10-11 10:00" }]
      else if ch = "watcherguru" then
        [{ text := "SOL outage resolved", dateStr := "10-11 08:00" }]
      else []
    fngHttp := none
    cgKey := none
    globalHttp := none }

/-- C2: for every `hours` outside `[1, 72]`, `get_realtime_news` returns
the range domain error with an empty interaction log — no session use and
no channel query happens; for every `hours` in `[1, 72]` the validation
check passes (the range error is never the result). -/
theorem claim_news_range_check (hours : Int) (env : ServerEnv) :
    ((hours < 1 ∨ 72 < hours) →
      get_realtime_news hours env = (Except.error hoursRangeMsg, [])) ∧
    (1 ≤ hours → hours ≤ 72 →
      (get_realtime_news hours env).1 ≠ Except.error hoursRangeMsg) := by
  constructor
  · intro h
    have hc : ¬ (1 ≤ hours ∧ hours ≤ 72) := by omega
    simp [get_realtime_news, hc]
  · intro h1 h2
    have hc : ¬ ¬ (1 ≤ hours ∧ hours ≤ 72) := by
      intro hcontra
      exact hcontra ⟨h1, h2⟩
    unfold get_realtime_news
    rw [if_neg hc]
    by_cases hr : env.ready = false
    · rw [if_pos hr]
      intro hcontra
      have hmsg : sessionNotReadyMsg = hoursRangeMsg := Except.error.inj hcontra
      exact absurd hmsg (by decide)
    · rw [if_neg hr]
      dsimp only
      split <;> simp

/-- C2 witness: `hours = 0` is rejected with an empty interaction log,
and `hours = 24` passes validation. -/
theorem claim_news_range_check_witness :
    get_realtime_news 0 envNoTg = (Except.error hoursRangeMsg, []) ∧
    (get_realtime_news 24 envNoTg).1 ≠ Except.error hoursRangeMsg :=
  ⟨(claim_news_range_check 0 envNoTg).1 (Or.inl (by decide)),
   (claim_news_range_check 24 envNoTg).2 (by decide) (by decide)⟩

/-- C3 counterexample: with the Telegram client absent (session not
ready), `get_market_overview` does NOT surface a domain error to the
caller — it returns a normal report whose whale section degrades to the
placeholder, because the `FastMCPError` raised inside the whale fetch is
captured by `asyncio.gather(return_exceptions=True)`. -/
theorem claim_session_error_counterexample :
    get_market_overview_full envNoTg =
      Except.ok ("현재 시장 개요 브리핑:\n- 주요 자금 이동 (지난 1시간): 포착된 움직임 없음") := by
  rfl

/-- C3 amended: the session-not-ready condition is surfaced as a domain
error on `get_realtime_news` (the only tool that propagates it), while
`get_market_overview` — although it also fetches from a channel — returns
a normal report in which the whale section degrades to the placeholder
line. -/
theorem claim_session_error_amended (hours : Int) (env : ServerEnv)
    (h1 : 1 ≤ hours) (h2 : hours ≤ 72) (hr : env.ready = false) :
    (get_realtime_news hours env).1 = Except.error sessionNotReadyMsg ∧
    ∃ pre, get_market_overview_full env =
      Except.ok (String.intercalate "\n" (overviewHeader :: (pre ++ [whalePlaceholder]))) := by
  constructor
  · have hc : ¬ ¬ (1 ≤ hours ∧ hours ≤ 72) := by
      intro hcontra
      exact hcontra ⟨h1, h2⟩
    unfold get_realtime_news
    rw [if_neg hc, if_pos hr]
  · refine ⟨sentimentSection (FetchResult.ok (fetch_fear_and_greed_index env.fngHttp)) ++
      dominanceSection (FetchResult.ok (fetch_global_market_data env.cgKey env.globalHttp)), ?_⟩
    have hwh : fetch_whale_alerts env.ready (env.hist "whale_alert_io") = FetchResult.exn := by
      simp [fetch_whale_alerts, hr]
    unfold get_market_overview_full get_market_overview
    rw [hwh, overviewLines_eq_sections]
    simp [whaleSection, List.append_assoc]

/-- C3 amended witness: at `hours = 24` in the not-ready environment,
the news tool errors while the overview returns the degraded report. -/
theorem claim_session_error_amended_witness :
    (get_realtime_news 24 envNoTg).1 = Except.error sessionNotReadyMsg ∧
    ∃ pre, get_market_overview_full envNoTg =
      Except.ok (String.intercalate "\n" (overviewHeader :: (pre ++ [whalePlaceholder]))) :=
  claim_session_error_amended 24 envNoTg (by decide) (by decide) rfl

/-- Joining exactly four lines flattens to the lines separated by the
separator. -/
theorem intercalate_four (sep a b c d : String) :
    String.intercalate sep [a, b, c, d] = a ++ sep ++ b ++ sep ++ c ++ sep ++ d := rfl

/-- The generic API-error message never coincides with the not-found
message, whatever the coin id and the exception text. -/
theorem coinApiErrMsg_ne_notFound (c e : String) :
    coinApiErrMsg c e ≠ coinNotFoundMsg c := by
  intro h
  have hd := congrArg String.data h
  simp only [coinApiErrMsg, coinNotFoundMsg, String.data_append, List.append_assoc] at hd
  have h1 := List.append_cancel_left hd
  have h2 := List.append_cancel_left h1
  have h3 := congrArg (List.take ("' 정보 조회 중 API 에러 발생: ".data.length)) h2
  rw [List.take_left] at h3
  exact absurd h3 (by decide)

/-- C6: with the API key configured, `get_coin_details` raises the
not-found domain error exactly when the HTTP fetch failed with status
404; every non-404 status error raises the generic API-error domain
error (which never coincides with the not-found message), and any other
exception (including the `IndexError` from an empty homepage list)
raises the generic fetch-failure domain error; on success it returns the
fixed-format report, which contains the asset's name, rank, price and
homepage. -/
theorem claim_coin_details (key : Option String) (coin_id : String) (http : HttpOutcome)
    (hkey : envTruthy key = true) :
    (∀ code emsg, http = HttpOutcome.statusErr code emsg →
      (get_coin_details key coin_id http = Except.error (coinNotFoundMsg coin_id) ↔
        code = 404)) ∧
    (∀ code emsg, http = HttpOutcome.statusErr code emsg → code ≠ 404 →
      get_coin_details key coin_id http = Except.error (coinApiErrMsg coin_id emsg) ∧
        coinApiErrMsg coin_id emsg ≠ coinNotFoundMsg coin_id) ∧
    (∀ emsg, http = HttpOutcome.failure emsg →
      get_coin_details key coin_id http = Except.error (coinFetchFailMsg coin_id emsg)) ∧
    (∀ d, http = HttpOutcome.ok d → d.homepage = some [] →
      get_coin_details key coin_id http =
        Except.error (coinFetchFailMsg coin_id indexErrorMsg)) ∧
    (∀ d hp rest, http = HttpOutcome.ok d → d.homepage.getD ["N/A"] = hp :: rest →
      get_coin_details key coin_id http =
        Except.ok (String.intercalate "\n" (coinReportLines d hp))) ∧
    (∀ nm sym r p hp rest,
      http = HttpOutcome.ok { name := some nm, symbol := some sym, rank := some r,
                              priceKrw := some p, homepage := some (hp :: rest) } →
      get_coin_details key coin_id http =
        Except.ok ("'" ++ nm ++ "' (" ++ pyUpper sym ++ ") 상세 정보:" ++ "\n" ++
          "- 시가총액 순위: " ++ toString r ++ "위" ++ "\n" ++
          "- 현재 가격: ₩" ++ formatComma p ++ "\n" ++
          "- 홈페이지: " ++ hp)) := by
  have hnotfalse : ¬ (envTruthy key = false) := by
    rw [hkey]
    intro hcontra
    exact Bool.noConfusion hcontra
  refine ⟨?_, ?_, ?_, ?_, ?_, ?_⟩
  · intro code emsg hhttp
    subst hhttp
    unfold get_coin_details
    rw [if_neg hnotfalse]
    dsimp only
    constructor
    · intro hres
      by_cases hc : code = 404
      · exact hc
      · rw [if_neg hc] at hres
        exact absurd (Except.error.inj hres) (coinApiErrMsg_ne_notFound coin_id emsg)
    · intro hc
      rw [if_pos hc]
  · intro code emsg hhttp hc
    subst hhttp
    refine ⟨?_, coinApiErrMsg_ne_notFound coin_id emsg⟩
    unfold get_coin_details
    rw [if_neg hnotfalse]
    dsimp only
    rw [if_neg hc]
  · intro emsg hhttp
    subst hhttp
    unfold get_coin_details
    rw [if_neg hnotfalse]
  · intro d hhttp hhp
    subst hhttp
    unfold get_coin_details
    rw [if_neg hnotfalse]
    simp [hhp]
  · intro d hp rest hhttp hhp
    subst hhttp
    unfold get_coin_details
    rw [if_neg hnotfalse]
    simp [hhp]
  · intro nm sym r p hp rest hhttp
    subst hhttp
    unfold get_coin_details
    rw [if_neg hnotfalse]
    simp only [Option.getD_some, List.head?_cons, coinReportLines, intercalate_four]
    congr 1
    simp only [Option.getD_some, String.append_assoc]

/-- C6 witness: a 404 status yields the not-found error for `bitcoin`,
and a 500 status yields the generic API-error domain error, distinct
from the not-found message. -/
theorem claim_coin_details_witness :
    (get_coin_details (some "demo-key") "bitcoin" (HttpOutcome.statusErr 404 "Not Found") =
      Except.error (coinNotFoundMsg "bitcoin")) ∧
    (get_coin_details (some "demo-key") "bitcoin"
        (HttpOutcome.statusErr 500 "Server Error") =
      Except.error (coinApiErrMsg "bitcoin" "Server Error")) ∧
    coinApiErrMsg "bitcoin" "Server Error" ≠ coinNotFoundMsg "bitcoin" :=
  ⟨((claim_coin_details (some "demo-key") "bitcoin" (HttpOutcome.statusErr 404 "Not Found")
      rfl).1 404 "Not Found" rfl).mpr rfl,
   ((claim_coin_details (some "demo-key") "bitcoin" (HttpOutcome.statusErr 500 "Server Error")
      rfl).2.1 500 "Server Error" rfl (by decide)).1,
   ((claim_coin_details (some "demo-key") "bitcoin" (HttpOutcome.statusErr 500 "Server Error")
      rfl).2.1 500 "Server Error" rfl (by decide)).2⟩

/-- A channel fetch yields at most 10 lines (the iterator limit). -/
theorem fetch_for_channel_length_le (ch : String) (hist : List TMsg) :
    (fetch_for_channel ch hist).length ≤ 10 := by
  unfold fetch_for_channel
  rw [filterMap_guard_eq]
  rw [List.length_map]
  exact Nat.le_trans (List.length_filter_le _ _) (List.length_take_le 10 hist)

/-- A channel fetch is an order-preserving selection of the yielded
messages, rendered by `newsLine`. -/
theorem fetch_for_channel_sublist (ch : String) (hist : List TMsg) :
    ∃ s, List.Sublist s hist ∧ fetch_for_channel ch hist = s.map (newsLine ch) := by
  refine ⟨(hist.take 10).filter (fun m => m.text != ""), ?_, ?_⟩
  · exact (List.filter_sublist _).trans (List.take_sublist 10 hist)
  · unfold fetch_for_channel
    rw [filterMap_guard_eq]

/-- C7: for every in-range `hours` and ready client, each channel
contributes at most 10 text messages, each channel's lines are an
order-preserving selection of that channel's yielded (chronological)
messages, and the report concatenates the full first-channel block
(`wublockchainenglish`) before the second (`watcherguru`) with no
cross-channel interleaving; an empty combined result yields the
placeholder sentence instead. -/
theorem claim_news_order (hours : Int) (env : ServerEnv) (r1 r2 : List String)
    (h1 : 1 ≤ hours) (h2 : hours ≤ 72) (hr : env.ready = true)
    (hr1 : r1 = fetch_for_channel "wublockchainenglish" (env.hist "wublockchainenglish"))
    (hr2 : r2 = fetch_for_channel "watcherguru" (env.hist "watcherguru")) :
    r1.length ≤ 10 ∧ r2.length ≤ 10 ∧
    (∃ s1, List.Sublist s1 (env.hist "wublockchainenglish") ∧
      r1 = s1.map (newsLine "wublockchainenglish")) ∧
    (∃ s2, List.Sublist s2 (env.hist "watcherguru") ∧ r2 = s2.map (newsLine "watcherguru")) ∧
    (r1 ++ r2 = [] → (get_realtime_news hours env).1 = Except.ok (noNewsMsg hours)) ∧
    (r1 ++ r2 ≠ [] → (get_realtime_news hours env).1 =
      Except.ok (String.intercalate "\n" (newsHeader hours :: (r1 ++ r2)))) := by
  subst hr1 hr2
  have hc : ¬ ¬ (1 ≤ hours ∧ hours ≤ 72) := by
    intro hcontra
    exact hcontra ⟨h1, h2⟩
  have hnr : ¬ (env.ready = false) := by
    rw [hr]
    intro hcontra
    exact Bool.noConfusion hcontra
  have hbody : get_realtime_news hours env =
      (if (fetch_for_channel "wublockchainenglish" (env.hist "wublockchainenglish") ++
            fetch_for_channel "watcherguru" (env.hist "watcherguru")).isEmpty then
        (Except.ok (noNewsMsg hours),
          [NetEvent.sessionUse, NetEvent.channelQuery "wublockchainenglish",
           NetEvent.channelQuery "watcherguru"])
      else
        (Except.ok (String.intercalate "\n" (newsHeader hours ::
            (fetch_for_channel "wublockchainenglish" (env.hist "wublockchainenglish") ++
             fetch_for_channel "watcherguru" (env.hist "watcherguru")))),
          [NetEvent.sessionUse, NetEvent.channelQuery "wublockchainenglish",
           NetEvent.channelQuery "watcherguru"])) := by
    unfold get_realtime_news
    rw [if_neg hc, if_neg hnr]
    simp [newsChannels]
  refine ⟨fetch_for_channel_length_le _ _, fetch_for_channel_length_le _ _,
    fetch_for_channel_sublist _ _, fetch_for_channel_sublist _ _, ?_, ?_⟩
  · intro hempty
    rw [hbody, if_pos (List.isEmpty_iff.mpr hempty)]
  · intro hne
    rw [hbody, if_neg (fun hcontra => hne (List.isEmpty_iff.mp hcontra))]

/-- C7 witness: on a concrete environment with messages on both channels,
the 24-hour report is the header followed by the first channel's lines
then the second channel's lines. -/
theorem claim_news_order_witness :
    (get_realtime_news 24 envWithNews).1 =
      Except.ok (String.intercalate "\n" (newsHeader 24 ::
        (fetch_for_channel "wublockchainenglish" (envWithNews.hist "wublockchainenglish") ++
         fetch_for_channel "watcherguru" (envWithNews.hist "watcherguru")))) :=
  (claim_news_order 24 envWithNews
    (fetch_for_channel "wublockchainenglish" (envWithNews.hist "wublockchainenglish"))
    (fetch_for_channel "watcherguru" (envWithNews.hist "watcherguru"))
    (by decide) (by decide) rfl rfl rfl).2.2.2.2.2 (by decide)

/-- C8: per turn, `process_query` performs at most one remote tool
invocation: when the first response part carries no function call there
are zero tool invocations and a single model round trip, returning the
first response's text; when it carries one there is exactly one remote
tool invocation and exactly one follow-up model call, returning the
follow-up response's text; and any further parts of the same response are
ignored entirely. -/
theorem claim_single_dispatch (chat : Option Nat) (newChat : Nat)
    (mcpTools : List MCPTool) (resp1 : GResp) (toolRes : ToolCallResult) (resp2 : GResp)
    (p : GPart) (rest : List GPart) (hp : resp1.parts = p :: rest) :
    (p.function_call = none →
      countToolCalls (process_query true chat newChat mcpTools resp1 toolRes resp2).2.2 = 0 ∧
      countModelSends (process_query true chat newChat mcpTools resp1 toolRes resp2).2.2 = 1 ∧
      (process_query true chat newChat mcpTools resp1 toolRes resp2).1 =
        Except.ok resp1.text) ∧
    (∀ fc, p.function_call = some fc →
      countToolCalls (process_query true chat newChat mcpTools resp1 toolRes resp2).2.2 = 1 ∧
      countModelSends (process_query true chat newChat mcpTools resp1 toolRes resp2).2.2 = 2 ∧
      (process_query true chat newChat mcpTools resp1 toolRes resp2).1 =
        Except.ok resp2.text) ∧
    (∀ rest2, process_query true chat newChat mcpTools
        { parts := p :: rest2, text := resp1.text } toolRes resp2 =
      process_query true chat newChat mcpTools resp1 toolRes resp2) := by
  have hhead : resp1.parts.head? = some p := by
    rw [hp]
    rfl
  refine ⟨?_, ?_, ?_⟩
  · intro hfc
    simp [process_query, hhead, hfc, countToolCalls, countModelSends]
  · intro fc hfc
    simp [process_query, hhead, hfc, countToolCalls, countModelSends]
  · intro rest2
    cases hfc : p.function_call <;> simp [process_query, hhead, hfc]

/-- C8 witness: a stubbed first response with no function call produces
zero tool invocations, one model round trip, and returns its text. -/
theorem claim_single_dispatch_witness :
    countToolCalls (process_query true none 0 []
      { parts := [{ function_call := none }], text := "hi" }
      { content := none } { parts := [], text := "" }).2.2 = 0 ∧
    countModelSends (process_query true none 0 []
      { parts := [{ function_call := none }], text := "hi" }
      { content := none } { parts := [], text := "" }).2.2 = 1 ∧
    (process_query true none 0 []
      { parts := [{ function_call := none }], text := "hi" }
      { content := none } { parts := [], text := "" }).1 = Except.ok "hi" :=
  (claim_single_dispatch none 0 []
    { parts := [{ function_call := none }], text := "hi" }
    { content := none } { parts := [], text := "" }
    { function_call := none } [] rfl).1 rfl

/-- C9: every exception raised during a conversational turn is caught by
the loop — the iteration continues rather than crashing — and the chat
handle is reset to `None`, so the next turn starts a fresh conversation. -/
theorem claim_chat_loop_reset (chat : Option Nat) (raw : String) (emsg : String)
    (hq : pyLower (pyStrip raw) ≠ "quit") (he : pyLower (pyStrip raw) ≠ "exit")
    (hne : pyStrip raw ≠ "") :
    chat_loop_iter chat raw (TurnOutcome.exn emsg) = (none, true) := by
  unfold chat_loop_iter
  rw [if_neg (not_or.mpr ⟨hq, he⟩), if_neg hne]

/-- C9 witness: a failing turn on a concrete query leaves the loop
running with the chat handle discarded. -/
theorem claim_chat_loop_reset_witness :
    chat_loop_iter (some 7) "what is btc" (TurnOutcome.exn "boom") = (none, true) :=
  claim_chat_loop_reset (some 7) "what is btc" "boom" (by decide) (by decide) (by decide)
